import Mathlib

/-!
Verification development for the sales-analysis pipeline
(`src/sales_analysis.py`).

The script is a linear pandas pipeline over an in-memory table:
load → inspect → impute/normalize → aggregate → visualize → report.
We embed the table as a list of named columns, a column as a list of
optional cells (a `none` cell is a pandas `NaN`/null), and a cell value as
either a rational number (pandas numeric) or a string (pandas
object/categorical).  Machine floats are modelled by `ℚ`: none of the
verified properties depends on rounding, and the pipeline's arithmetic
(mean, min-max scaling, grouped sums) is exact in `ℚ`.
-/

namespace SalesAnalysisModel

/-- A non-null cell value: pandas numeric (modelled by `ℚ`) or
pandas object/categorical (modelled by `String`). -/
inductive Value where
  | num (q : ℚ)
  | cat (s : String)
deriving DecidableEq, Repr

/-- A cell of the table: `none` is a pandas missing value (`NaN`). -/
abbrev Cell := Option Value

/-- A column is the list of its cells, in row order. -/
abbrev Column := List Cell

/-- A table (`pandas.DataFrame`) is its list of named columns, in column
order.  Rows are positional across the columns. -/
abbrev Table := List (String × Column)

/-- `df.columns`: the column names in order. -/
def columns (t : Table) : List String := t.map Prod.fst

/-- `df[n]`: the first column named `n`, if any (pandas raises `KeyError`
otherwise, modelled by `none`). -/
def getCol (t : Table) (n : String) : Option Column :=
  (t.find? (fun p => p.1 = n)).map Prod.snd

/-- `df[col].isnull().sum()`: the number of missing cells of a column. -/
def nullCount (c : Column) : ℕ := (c.filter Option.isNone).length

/-- The numeric content of a cell (`none` for a null or categorical cell). -/
def cellQ (c : Cell) : Option ℚ :=
  match c with
  | some (Value.num q) => some q
  | _ => none

/-- A cell a numeric pandas column can hold: a number or a null. -/
def isNumCell (c : Cell) : Bool :=
  match c with
  | none => true
  | some (Value.num _) => true
  | some (Value.cat _) => false

/-- The observed (non-null) values of a column, in row order. -/
def observed (c : Column) : List Value := c.filterMap id

/-- The observed numeric values of a column, in row order
(pandas reductions skip nulls). -/
def numsOf (c : Column) : List ℚ := c.filterMap cellQ

/-- `df[col].mean()`: mean of the observed numeric values; `none` models
the `NaN` pandas returns when no value is observed.  (Used only on the
designated numeric columns, which hold numeric cells.) -/
def colMean (c : Column) : Option ℚ :=
  let xs := numsOf c
  if xs.length = 0 then none else some (xs.sum / xs.length)

/-- How many times value `v` occurs among the observed values `xs`. -/
def countVal (xs : List Value) (v : Value) : ℕ :=
  (xs.filter (fun w => w = v)).length

/-- `df[col].mode()[0]`: a most frequent observed value; `none` models the
`IndexError` pandas raises when the column is entirely null (empty mode).
We return the first occurrence attaining the maximal count; pandas sorts
the tied modes instead, but no verified property depends on which tied
mode is chosen. -/
def firstMode (c : Column) : Option Value :=
  let xs := observed c
  xs.find? (fun v => xs.all (fun w => countVal xs w ≤ countVal xs v))

/-- The designated numeric columns of `clean_data`
(`numeric_columns = ['Unit', 'Sales']`). -/
def numericColumns : List String := ["Unit", "Sales"]

/-- `df[col].fillna(df[col].mean(), inplace=True)` on a numeric column:
with at least one observed value the mean is defined and every null is
replaced by it; on an all-null column the mean is `NaN` and `fillna`
leaves the column unchanged.  `df[col].mean()` raises a `TypeError` on
non-numeric data, modelled by `none`. -/
def fillNumeric (c : Column) : Option Column :=
  if c.all isNumCell then
    match colMean c with
    | none => some c
    | some m => some (c.map (fun cell => some (cell.getD (Value.num m))))
  else none

/-- `df[col].fillna(df[col].mode()[0], inplace=True)`: every null is
replaced by the mode; on an entirely null column `mode()[0]` raises
(`none`). -/
def fillMode (c : Column) : Option Column :=
  match firstMode c with
  | none => none
  | some m => some (c.map (fun cell => some (cell.getD m)))

/-- One iteration of the imputation loop of `clean_data` (line 81-88):
columns without nulls are untouched; a designated numeric column is
mean-filled, any other column is mode-filled. -/
def imputeCol (n : String) (c : Column) : Option Column :=
  if nullCount c = 0 then some c
  else if n ∈ numericColumns then fillNumeric c
  else fillMode c

/-- The imputation loop of `clean_data` over all columns, in order;
fails (`none`) when some column's fill raises. -/
def impute : Table → Option Table
  | [] => some []
  | (n, c) :: rest =>
    match imputeCol n c, impute rest with
    | some c', some rest' => some ((n, c') :: rest')
    | _, _ => none

/-- The `MinMaxScaler` transform of one cell, given the fitted column
minimum and maximum: `(x - min) / (max - min)`, except that sklearn
replaces a zero range by 1 (`_handle_zeros_in_scale`), so a constant
column maps to `(x - min) / 1 = 0`.  Null cells pass through as `NaN`. -/
def scaleCell (mn mx : ℚ) (cell : Cell) : Cell :=
  match cell with
  | some (Value.num q) => some (Value.num (if mx = mn then 0 else (q - mn) / (mx - mn)))
  | other => other

/-- `sklearn.preprocessing.MinMaxScaler` on one feature column: `fit`
computes the observed (`NaN`-skipping) minimum and maximum, `transform`
rescales every cell.  A column with no observed value has `NaN` bounds
and every cell transforms to `NaN`, i.e. the column is unchanged. -/
def minmaxCol (c : Column) : Column :=
  match (numsOf c).min?, (numsOf c).max? with
  | some mn, some mx => c.map (scaleCell mn mx)
  | _, _ => c

/-- `self.df[numeric_columns] = scaler.fit_transform(self.df[numeric_columns])`
(line 91-93): fails (`none`) when a designated numeric column is absent
(`KeyError`), holds non-numeric data, or is empty (sklearn rejects 0
samples); otherwise rescales exactly the designated numeric columns. -/
def scaleStep (t : Table) : Option Table :=
  if ("Unit" ∈ columns t ∧ "Sales" ∈ columns t ∧
      ∀ p ∈ t, p.1 ∈ numericColumns → (p.2.all isNumCell ∧ p.2 ≠ [])) then
    some (t.map (fun p => (p.1, if p.1 ∈ numericColumns then minmaxCol p.2 else p.2)))
  else none

/-- `SalesAnalysis.clean_data` (line 67-97): the imputation loop followed
by min-max scaling of the designated numeric columns; `none` models an
uncaught exception. -/
def clean_data (t : Table) : Option Table :=
  (impute t).bind scaleStep

/-- The order pandas sorts group keys by: numbers by value, strings
lexicographically.  (A real frame's key column is homogeneous; the order
across the two kinds is immaterial and fixed arbitrarily.) -/
def Value.leB : Value → Value → Bool
  | Value.num a, Value.num b => decide (a ≤ b)
  | Value.cat a, Value.cat b => !(decide (b < a))
  | Value.num _, Value.cat _ => true
  | Value.cat _, Value.num _ => false

/-- The (key, sales-cell) pairs `df.groupby(k)[v]` operates on: rows
paired positionally, rows with a null key dropped (pandas groupby drops
null keys). -/
def pairKeyed (kc vc : Column) : List (Value × Cell) :=
  (kc.zip vc).filterMap (fun p => p.1.map (fun k => (k, p.2)))

/-- The distinct group keys, sorted ascending (pandas groupby sorts keys
by default). -/
def groupKeys (ps : List (Value × Cell)) : List Value :=
  ((ps.map Prod.fst).dedup).mergeSort Value.leB

/-- One group's `.sum()`: nulls are skipped (contribute 0), the empty sum
is 0, exactly as pandas. -/
def groupSum (ps : List (Value × Cell)) (k : Value) : ℚ :=
  ((ps.filter (fun p => p.1 = k)).map (fun p => (cellQ p.2).getD 0)).sum

/-- `df.groupby(k)[v].sum().reset_index()`: one (key, sum) row per
distinct key, keys sorted ascending. -/
def groupbySum (kc vc : Column) : List (Value × ℚ) :=
  (groupKeys (pairKeyed kc vc)).map (fun k => (k, groupSum (pairKeyed kc vc) k))

/-- One group's `.mean()`: mean of the group's observed values; `NaN`
(`none`) when the group has none. -/
def groupMean (ps : List (Value × Cell)) (k : Value) : Option ℚ :=
  colMean ((ps.filter (fun p => p.1 = k)).map Prod.snd)

/-- `df.groupby(k)[v].mean().reset_index()`. -/
def groupbyMean (kc vc : Column) : List (Value × Option ℚ) :=
  (groupKeys (pairKeyed kc vc)).map (fun k => (k, groupMean (pairKeyed kc vc) k))

/-- `frame.nlargest(3, 'Sales')` with the default `keep='first'`:
the first three rows of the stable descending sort by the sales value
(tied rows keep their frame order). -/
def nlargest3 (g : List (Value × ℚ)) : List (Value × ℚ) :=
  (g.mergeSort (fun a b => decide (b.2 ≤ a.2))).take 3

/-- `frame.nsmallest(3, 'Sales')` with the default `keep='first'`:
the first three rows of the stable ascending sort by the sales value. -/
def nsmallest3 (g : List (Value × ℚ)) : List (Value × ℚ) :=
  (g.mergeSort (fun a b => decide (a.2 ≤ b.2))).take 3

/-- The eight rows of `Series.describe()`.  pandas reports
`std = sqrt(sample variance)`; the square root of a rational is
irrational in general, so the record carries the sample variance
`stdSq` — two describe results have equal `std` exactly when they have
equal `stdSq`, which is all the verified properties use. -/
structure DescStats where
  count : ℕ
  mean : Option ℚ
  stdSq : Option ℚ
  min : Option ℚ
  q25 : Option ℚ
  q50 : Option ℚ
  q75 : Option ℚ
  max : Option ℚ
deriving DecidableEq, Repr

/-- The sample variance (`ddof=1`, pandas default); `NaN` (`none`) with
fewer than two observations. -/
def sampleVar (xs : List ℚ) : Option ℚ :=
  if xs.length < 2 then none
  else some ((xs.map (fun x => (x - xs.sum / xs.length) ^ 2)).sum / ((xs.length : ℚ) - 1))

/-- The `q`-quantile of an ascending-sorted list, with pandas' linear
interpolation: position `h = q * (n - 1)`, interpolated between the
neighbouring order statistics. -/
def quantileSorted (xs : List ℚ) (q : ℚ) : Option ℚ :=
  match xs with
  | [] => none
  | _ =>
    let n := xs.length
    let h : ℚ := q * ((n : ℚ) - 1)
    let i : ℕ := (⌊h⌋).toNat
    let lo := xs.getD i 0
    let hi := xs.getD (min (i + 1) (n - 1)) 0
    some (lo + (h - (i : ℚ)) * (hi - lo))

/-- `df[col].describe()`: count, mean, std (carried as `stdSq`), min,
quartiles, max over the observed numeric values. -/
def describeCol (c : Column) : DescStats :=
  let xs := (numsOf c).mergeSort (fun a b => decide (a ≤ b))
  { count := (numsOf c).length
    mean := colMean c
    stdSq := sampleVar (numsOf c)
    min := xs.head?
    q25 := quantileSorted xs (1 / 4)
    q50 := quantileSorted xs (1 / 2)
    q75 := quantileSorted xs (3 / 4)
    max := xs.getLast? }

/-- `df[['Unit', 'Sales']].describe()` (line 122). -/
structure Stats2 where
  unit : DescStats
  sales : DescStats
deriving DecidableEq, Repr

/-- The aggregates `perform_analysis` derives from the cleaned table. -/
structure Aggregates where
  state_wise : List (Value × ℚ)
  group_wise : List (Value × ℚ)
  time_wise : Option (List (Value × Option ℚ))
  stats : Stats2
deriving DecidableEq, Repr

/-- The pure content of `SalesAnalysis.perform_analysis` (line 99-126):
sum of Sales by State and by Group; mean of Sales by Time when a Time
column exists; descriptive statistics of Unit and Sales.  `none` models
the `KeyError` raised when a required column is absent. -/
def perform_analysis_core (df : Table) : Option Aggregates :=
  match getCol df "State", getCol df "Group", getCol df "Sales", getCol df "Unit" with
  | some sc, some gc, some xc, some uc =>
    some { state_wise := groupbySum sc xc
           group_wise := groupbySum gc xc
           time_wise := (getCol df "Time").map (fun tc => groupbyMean tc xc)
           stats := ⟨describeCol uc, describeCol xc⟩ }
  | _, _, _, _ => none

/-- The mutable fields of the `SalesAnalysis` object the verified
properties observe: the table and the three cached aggregates
(all `None` at construction). -/
structure AnalysisState where
  df : Option Table
  state_wise : Option (List (Value × ℚ))
  group_wise : Option (List (Value × ℚ))
  time_wise : Option (List (Value × Option ℚ))
deriving DecidableEq, Repr

/-- `SalesAnalysis.perform_analysis` as a state transformer: reads
`self.df`, stores the aggregates on `self`, returns the statistics.
`self.time_wise` is only assigned when a Time column exists (line 116),
otherwise it keeps its previous value. -/
def perform_analysis (s : AnalysisState) : Option (AnalysisState × Stats2) :=
  s.df.bind (fun df =>
    (perform_analysis_core df).map (fun a =>
      ({ s with
          state_wise := some a.state_wise
          group_wise := some a.group_wise
          time_wise :=
            match a.time_wise with
            | some tw => some tw
            | none => s.time_wise },
       a.stats)))

/-- The per-column mask `missing_values > 0` returned by
`check_missing_values` (line 65). -/
def missingMask (df : Table) : List (String × Bool) :=
  df.map (fun p => (p.1, decide (0 < nullCount p.2)))

/-- `SalesAnalysis.check_missing_values` (line 54-65) as a state
transformer: reads `self.df`, prints diagnostics (no model), and returns
the boolean mask.  It writes no field. -/
def check_missing_values (s : AnalysisState) : Option (AnalysisState × List (String × Bool)) :=
  s.df.map (fun df => (s, missingMask df))

/-- The configured input path, relative to the base directory. -/
def data_path : String := "data/AusApparalSales4thQrt2020.csv"

/-- The filesystem the run starts from: the files present at each path,
a file's content abstracted to its `pd.read_csv` parse (`none`: the file
exists but `read_csv` raises, caught at line 50). -/
structure FS where
  files : List (String × Option Table)

/-- `SalesAnalysis.load_data` (line 35-52): `False` when the path does
not exist (line 38-40) or parsing raises (line 50-52); on success the
table is loaded and `True` returned. -/
def load_data (fs : FS) : Bool × Option Table :=
  match fs.files.find? (fun p => p.1 = data_path) with
  | none => (false, none)
  | some (_, none) => (false, none)
  | some (_, some t) => (true, some t)

/-- The chart files `create_visualizations` (line 128-191) writes: the
time-of-day line chart only when a Time column exists (line 169). -/
def chartFiles (df : Table) : List String :=
  ["state_wise_sales.png", "group_sales.png", "sales_distribution.png"]
    ++ (if "Time" ∈ columns df then ["time_of_day_sales.png"] else [])
    ++ ["unit_sales_relationship.png"]

/-- The report file `generate_report` (line 193-263) writes. -/
def report_file : String := "sales_report.md"

/-- The observable outcome of one `main()` run: whether the load
succeeded, which pipeline stages ran, which output files were written,
and whether the run reached the final success message. -/
structure RunResult where
  loaded : Bool
  stages : List String
  filesWritten : List String
  success : Bool
deriving DecidableEq, Repr

/-- The stages `main()` runs after a successful load (line 271-275), in
order; an uncaught exception (a `none` stage result) aborts the run
before any file is written by the two writing stages. -/
def runPipeline (df : Table) : RunResult :=
  match clean_data df with
  | none => ⟨true, ["load_data", "check_missing_values", "clean_data"], [], false⟩
  | some df1 =>
    match perform_analysis_core df1 with
    | none =>
      ⟨true, ["load_data", "check_missing_values", "clean_data", "perform_analysis"],
       [], false⟩
    | some _ =>
      ⟨true,
       ["load_data", "check_missing_values", "clean_data", "perform_analysis",
        "create_visualizations", "generate_report"],
       chartFiles df1 ++ [report_file], true⟩

/-- `main()` (line 265-280): on load failure the run stops with no later
stage and no output file; otherwise the pipeline runs on the loaded
table. -/
def main (fs : FS) : RunResult :=
  match load_data fs with
  | (true, some df) => runPipeline df
  | _ => ⟨false, ["load_data"], [], false⟩

/-! ### Concrete fixtures -/

/-- A one-row table whose Unit column is entirely null. -/
def tAllNullUnit : Table :=
  [("Unit", [none]),
   ("Sales", [some (Value.num 5)]),
   ("State", [some (Value.cat "A")]),
   ("Group", [some (Value.cat "G")])]

/-- What `clean_data` makes of `tAllNullUnit`: the all-null Unit column
survives cleaning untouched. -/
def cleanedAllNullUnit : Table :=
  [("Unit", [none]),
   ("Sales", [some (Value.num 0)]),
   ("State", [some (Value.cat "A")]),
   ("Group", [some (Value.cat "G")])]

/-- A two-row table with a null in Unit and a null in State, both
columns keeping an observed value. -/
def tWithNulls : Table :=
  [("Unit", [some (Value.num 1), none]),
   ("Sales", [some (Value.num 2), some (Value.num 4)]),
   ("State", [some (Value.cat "A"), none])]

/-- What `clean_data` makes of `tWithNulls`. -/
def cleanedWithNulls : Table :=
  [("Unit", [some (Value.num 0), some (Value.num 0)]),
   ("Sales", [some (Value.num 0), some (Value.num 1)]),
   ("State", [some (Value.cat "A"), some (Value.cat "A")])]

/-- A two-row table whose designated numeric Unit column is constant. -/
def tConstUnit : Table :=
  [("Unit", [some (Value.num 7), some (Value.num 7)]),
   ("Sales", [some (Value.num 1), some (Value.num 3)]),
   ("State", [some (Value.cat "A"), some (Value.cat "B")]),
   ("Group", [some (Value.cat "G"), some (Value.cat "G")])]

/-- What `clean_data` makes of `tConstUnit`: the constant Unit column
deterministically maps to all zeros. -/
def cleanedConstUnit : Table :=
  [("Unit", [some (Value.num 0), some (Value.num 0)]),
   ("Sales", [some (Value.num 0), some (Value.num 1)]),
   ("State", [some (Value.cat "A"), some (Value.cat "B")]),
   ("Group", [some (Value.cat "G"), some (Value.cat "G")])]

/-- Five one-row states with summed sales A:100, B:50, C:200, D:10,
E:75. -/
def tFiveStates : Table :=
  [("State", [some (Value.cat "A"), some (Value.cat "B"), some (Value.cat "C"),
              some (Value.cat "D"), some (Value.cat "E")]),
   ("Sales", [some (Value.num 100), some (Value.num 50), some (Value.num 200),
              some (Value.num 10), some (Value.num 75)]),
   ("Unit", [some (Value.num 1), some (Value.num 1), some (Value.num 1),
             some (Value.num 1), some (Value.num 1)]),
   ("Group", [some (Value.cat "G"), some (Value.cat "G"), some (Value.cat "G"),
              some (Value.cat "G"), some (Value.cat "G")])]

/-- The State column of `tFiveStates`. -/
def stateCol5 : Column :=
  [some (Value.cat "A"), some (Value.cat "B"), some (Value.cat "C"),
   some (Value.cat "D"), some (Value.cat "E")]

/-- The Sales column of `tFiveStates`. -/
def salesCol5 : Column :=
  [some (Value.num 100), some (Value.num 50), some (Value.num 200),
   some (Value.num 10), some (Value.num 75)]

/-- The grouped frame `tFiveStates` produces: keys sorted, one summed
row per state. -/
def grouped5 : List (Value × ℚ) :=
  [(Value.cat "A", 100), (Value.cat "B", 50), (Value.cat "C", 200),
   (Value.cat "D", 10), (Value.cat "E", 75)]

/-- A complete, null-free table without a Time column. -/
def tNoTime : Table :=
  [("Unit", [some (Value.num 1), some (Value.num 2)]),
   ("Sales", [some (Value.num 3), some (Value.num 5)]),
   ("State", [some (Value.cat "A"), some (Value.cat "B")]),
   ("Group", [some (Value.cat "X"), some (Value.cat "Y")])]

/-- What the imputation loop makes of `tWithNulls` (mean 1 into Unit,
mode A into State). -/
def imputedWithNulls : Table :=
  [("Unit", [some (Value.num 1), some (Value.num 1)]),
   ("Sales", [some (Value.num 2), some (Value.num 4)]),
   ("State", [some (Value.cat "A"), some (Value.cat "A")])]

/-- What `clean_data` makes of `tNoTime`. -/
def cleanedNoTime : Table :=
  [("Unit", [some (Value.num 0), some (Value.num 1)]),
   ("Sales", [some (Value.num 0), some (Value.num 1)]),
   ("State", [some (Value.cat "A"), some (Value.cat "B")]),
   ("Group", [some (Value.cat "X"), some (Value.cat "Y")])]

/-- A one-row table with all four required columns. -/
def tTiny : Table :=
  [("Unit", [some (Value.num 1)]), ("Sales", [some (Value.num 2)]),
   ("State", [some (Value.cat "A")]), ("Group", [some (Value.cat "G")])]

/-- `describe()` of the one-value column `[q]`: every location statistic
is `q`, the sample variance is `NaN`. -/
def descSingleton (q : ℚ) : DescStats :=
  ⟨1, some q, none, some q, some q, some q, some q, some q⟩

/-- The aggregates `perform_analysis` derives from `tTiny`. -/
def aggTiny : Aggregates :=
  { state_wise := [(Value.cat "A", 2)]
    group_wise := [(Value.cat "G", 2)]
    time_wise := none
    stats := ⟨descSingleton 1, descSingleton 2⟩ }

/-- The analysis object freshly loaded with `tTiny`. -/
def sTiny : AnalysisState := ⟨some tTiny, none, none, none⟩

/-- The analysis object after one `perform_analysis` run on `tTiny`. -/
def sTiny1 : AnalysisState :=
  ⟨some tTiny, some [(Value.cat "A", 2)], some [(Value.cat "G", 2)], none⟩

/-- `describe()` of the column `[0, 1]`. -/
def desc01 : DescStats :=
  ⟨2, some (1 / 2), some (1 / 2), some 0, some (1 / 4), some (1 / 2),
   some (3 / 4), some 1⟩

/-- The aggregates `perform_analysis` derives from `cleanedNoTime`. -/
def aggNoTime : Aggregates :=
  { state_wise := [(Value.cat "A", 0), (Value.cat "B", 1)]
    group_wise := [(Value.cat "X", 0), (Value.cat "Y", 1)]
    time_wise := none
    stats := ⟨desc01, desc01⟩ }

/-! ### Helper lemmas -/

lemma min?_spec {xs : List ℚ} {a : ℚ} (h : xs.min? = some a) :
    a ∈ xs ∧ ∀ b ∈ xs, a ≤ b := by
  haveI : Std.Antisymm (fun a b : ℚ => a ≤ b) := ⟨fun h1 h2 => le_antisymm h1 h2⟩
  exact (List.min?_eq_some_iff (fun _ => le_refl _) min_choice
    (fun _ _ _ => le_min_iff)).mp h

lemma max?_spec {xs : List ℚ} {a : ℚ} (h : xs.max? = some a) :
    a ∈ xs ∧ ∀ b ∈ xs, b ≤ a := by
  haveI : Std.Antisymm (fun a b : ℚ => a ≤ b) := ⟨fun h1 h2 => le_antisymm h1 h2⟩
  exact (List.max?_eq_some_iff (fun _ => le_refl _) max_choice
    (fun _ _ _ => sup_le_iff)).mp h

/-- `imputeCol` never changes the number of rows of a column. -/
lemma imputeCol_length {n : String} {c c' : Column} (h : imputeCol n c = some c') :
    c'.length = c.length := by
  unfold imputeCol fillNumeric fillMode at h
  split at h
  · cases h; rfl
  · split at h
    · split at h
      · split at h
        · cases h; rfl
        · cases h; simp
      · exact absurd h (by simp)
    · split at h
      · exact absurd h (by simp)
      · cases h; simp

/-- A column without nulls is untouched by the imputation loop. -/
lemma imputeCol_of_nullCount_zero {n : String} {c : Column} (h : nullCount c = 0) :
    imputeCol n c = some c := by
  unfold imputeCol
  simp [h]

/-- `minmaxCol` never changes the number of rows of a column. -/
lemma minmaxCol_length (c : Column) : (minmaxCol c).length = c.length := by
  unfold minmaxCol
  split <;> simp

/-- `minmaxCol` maps null cells to null cells and observed cells to
observed cells. -/
lemma nullCount_minmaxCol (c : Column) : nullCount (minmaxCol c) = nullCount c := by
  unfold minmaxCol
  split
  · unfold nullCount
    rw [← List.countP_eq_length_filter, ← List.countP_eq_length_filter, List.countP_map]
    apply List.countP_congr
    intro cell _
    match cell with
    | none => rfl
    | some (Value.num q) => rfl
    | some (Value.cat s) => rfl
  · rfl

/-- A column whose cells are all observed after a fill has no nulls. -/
lemma nullCount_map_some (c : Column) (f : Cell → Value) :
    nullCount (c.map (fun cell => some (f cell))) = 0 := by
  unfold nullCount
  rw [← List.countP_eq_length_filter, List.countP_map]
  simp [Function.comp]

/-- On an all-numeric column every observed value is numeric, so the
numeric view has the same length as the observed view. -/
lemma numsOf_length_of_all {c : Column} (h : c.all isNumCell) :
    (numsOf c).length = (observed c).length := by
  induction c with
  | nil => rfl
  | cons cell c ih =>
    simp only [List.all_cons, Bool.and_eq_true] at h
    match cell, h.1 with
    | none, _ => simpa [numsOf, observed, cellQ] using ih h.2
    | some (Value.num q), _ => simpa [numsOf, observed, cellQ] using ih h.2

/-- A successful mean fill on a column with an observed value leaves no
nulls.  (On an all-null column the mean is `NaN` and the nulls stay.) -/
lemma fillNumeric_nullCount {c c' : Column} (hobs : observed c ≠ [])
    (h : fillNumeric c = some c') : nullCount c' = 0 := by
  unfold fillNumeric at h
  split at h
  · rename_i hall
    cases hm : colMean c with
    | none =>
      exfalso
      unfold colMean at hm
      have hlen := numsOf_length_of_all hall
      have : (observed c).length ≠ 0 := by
        intro h0
        exact hobs (List.length_eq_zero.mp h0)
      simp only at hm
      split at hm
      · rename_i hz
        rw [hlen] at hz
        exact this hz
      · exact absurd hm (by simp)
    | some m =>
      rw [hm] at h
      cases h
      exact nullCount_map_some c _
  · exact absurd h (by simp)

/-- A successful mode fill leaves no nulls. -/
lemma fillMode_nullCount {c c' : Column} (h : fillMode c = some c') :
    nullCount c' = 0 := by
  unfold fillMode at h
  split at h
  · exact absurd h (by simp)
  · cases h
    exact nullCount_map_some c _

/-- The mode of a column with at least one observed value exists
(`mode()[0]` does not raise). -/
lemma firstMode_isSome {c : Column} (hobs : observed c ≠ []) :
    ∃ m, firstMode c = some m := by
  unfold firstMode
  rw [← Option.isSome_iff_exists, List.find?_isSome]
  cases hm : (observed c).argmax (countVal (observed c)) with
  | none => exact absurd (List.argmax_eq_none.mp hm) hobs
  | some m =>
    refine ⟨m, List.argmax_mem hm, ?_⟩
    simp only [List.all_eq_true]
    intro w hw
    simpa using List.le_of_mem_argmax hw hm

/-- After a successful imputation of a column that is not entirely null,
no nulls remain. -/
lemma imputeCol_nullCount {n : String} {c c' : Column}
    (hobs : 0 < nullCount c → observed c ≠ [])
    (h : imputeCol n c = some c') : nullCount c' = 0 := by
  unfold imputeCol at h
  split at h
  · rename_i h0
    cases h
    exact h0
  · rename_i h0
    have hne : observed c ≠ [] := hobs (Nat.pos_of_ne_zero h0)
    split at h
    · exact fillNumeric_nullCount hne h
    · exact fillMode_nullCount h

/-- Index-wise description of a successful `impute` run. -/
lemma impute_get {t u : Table} (h : impute t = some u) :
    u.length = t.length ∧
      ∀ i (hi : i < u.length) (hi' : i < t.length),
        (u.get ⟨i, hi⟩).1 = (t.get ⟨i, hi'⟩).1 ∧
        imputeCol (t.get ⟨i, hi'⟩).1 (t.get ⟨i, hi'⟩).2 = some (u.get ⟨i, hi⟩).2 := by
  induction t generalizing u with
  | nil =>
    unfold impute at h
    cases h
    exact ⟨rfl, fun i hi hi' => absurd hi (by simp)⟩
  | cons p t ih =>
    obtain ⟨n, c⟩ := p
    unfold impute at h
    cases hc : imputeCol n c with
    | none => rw [hc] at h; exact absurd h (by simp)
    | some c' =>
      cases hrest : impute t with
      | none => rw [hc, hrest] at h; exact absurd h (by simp)
      | some rest' =>
        rw [hc, hrest] at h
        cases h
        obtain ⟨hlen, hget⟩ := ih hrest
        refine ⟨by simpa using hlen, ?_⟩
        intro i hi hi'
        match i with
        | 0 =>
          refine ⟨rfl, ?_⟩
          simpa using hc
        | Nat.succ j =>
          exact hget j (by simpa using hi) (by simpa using hi')

/-- Membership description of a successful `impute` run. -/
lemma impute_mem {t u : Table} (h : impute t = some u) :
    ∀ q ∈ u, ∃ r ∈ t, r.1 = q.1 ∧ imputeCol r.1 r.2 = some q.2 := by
  induction t generalizing u with
  | nil =>
    unfold impute at h
    cases h
    intro q hq
    exact absurd hq (by simp)
  | cons p t ih =>
    obtain ⟨n, c⟩ := p
    unfold impute at h
    cases hc : imputeCol n c with
    | none => rw [hc] at h; exact absurd h (by simp)
    | some c' =>
      cases hrest : impute t with
      | none => rw [hc, hrest] at h; exact absurd h (by simp)
      | some rest' =>
        rw [hc, hrest] at h
        cases h
        intro q hq
        rcases List.mem_cons.mp hq with hq | hq
        · subst hq
          exact ⟨(n, c), List.mem_cons_self _ _, rfl, hc⟩
        · obtain ⟨r, hr, h1, h2⟩ := ih hrest q hq
          exact ⟨r, List.mem_cons_of_mem _ hr, h1, h2⟩

/-- `impute` preserves the column names in order. -/
lemma columns_impute {t u : Table} (h : impute t = some u) : columns u = columns t := by
  obtain ⟨hlen, hget⟩ := impute_get h
  unfold columns
  apply List.ext_getElem (by simpa using hlen)
  intro i h1 h2
  rw [List.getElem_map, List.getElem_map]
  exact (hget i (by simpa using h1) (by simpa using h2)).1

/-- Unpack a successful `scaleStep`. -/
lemma scaleStep_eq {u t' : Table} (h : scaleStep u = some t') :
    t' = u.map (fun p => (p.1, if p.1 ∈ numericColumns then minmaxCol p.2 else p.2)) ∧
      "Unit" ∈ columns u ∧ "Sales" ∈ columns u ∧
      ∀ p ∈ u, p.1 ∈ numericColumns → (p.2.all isNumCell ∧ p.2 ≠ []) := by
  unfold scaleStep at h
  split at h
  · rename_i hcond
    cases h
    exact ⟨rfl, hcond.1, hcond.2.1, hcond.2.2⟩
  · exact absurd h (by simp)

/-- A successful imputation of a non-designated column leaves no nulls
(an all-null categorical column makes `mode()[0]` raise instead). -/
lemma imputeCol_nonnumeric_nullCount {n : String} {c c' : Column}
    (hn : n ∉ numericColumns) (h : imputeCol n c = some c') : nullCount c' = 0 := by
  by_cases h0 : nullCount c = 0
  · unfold imputeCol at h
    rw [if_pos h0] at h
    cases h
    exact h0
  · unfold imputeCol at h
    rw [if_neg h0, if_neg hn] at h
    exact fillMode_nullCount h

/-- Split a successful `clean_data` into its two steps. -/
lemma clean_data_parts {t t' : Table} (h : clean_data t = some t') :
    ∃ u, impute t = some u ∧ scaleStep u = some t' := by
  unfold clean_data at h
  cases himp : impute t with
  | none => rw [himp] at h; exact absurd h (by simp)
  | some u => rw [himp] at h; exact ⟨u, rfl, h⟩

/-- Core of the cleaning postcondition: when every column that has a
null also has an observed value, a successful `clean_data` leaves no
null anywhere. -/
lemma clean_data_noNulls {t t' : Table} (h : clean_data t = some t')
    (hobs : ∀ p ∈ t, 0 < nullCount p.2 → observed p.2 ≠ []) :
    ∀ p ∈ t', nullCount p.2 = 0 := by
  obtain ⟨u, himp, hscale⟩ := clean_data_parts h
  obtain ⟨ht', _, _, _⟩ := scaleStep_eq hscale
  intro p hp
  rw [ht'] at hp
  obtain ⟨q, hq, rfl⟩ := List.mem_map.mp hp
  obtain ⟨r, hr, hr1, hr2⟩ := impute_mem himp q hq
  have hq2 : nullCount q.2 = 0 := imputeCol_nullCount (hobs r hr) hr2
  by_cases hnum : q.1 ∈ numericColumns
  · simpa [hnum, nullCount_minmaxCol] using hq2
  · simpa [hnum] using hq2

/-- After a successful `clean_data`, non-designated columns never hold a
null. -/
lemma clean_data_nonnumeric_noNulls {t t' : Table} (h : clean_data t = some t') :
    ∀ p ∈ t', p.1 ∉ numericColumns → nullCount p.2 = 0 := by
  obtain ⟨u, himp, hscale⟩ := clean_data_parts h
  obtain ⟨ht', _, _, _⟩ := scaleStep_eq hscale
  intro p hp hnum
  rw [ht'] at hp
  obtain ⟨q, hq, rfl⟩ := List.mem_map.mp hp
  have hnum' : q.1 ∉ numericColumns := by simpa using hnum
  obtain ⟨r, hr, hr1, hr2⟩ := impute_mem himp q hq
  show nullCount (if q.1 ∈ numericColumns then minmaxCol q.2 else q.2) = 0
  rw [if_neg hnum']
  rw [← hr1] at hnum'
  exact imputeCol_nonnumeric_nullCount hnum' hr2

/-- A successful column lookup yields a column of the table. -/
lemma getCol_mem {t : Table} {n : String} {c : Column} (h : getCol t n = some c) :
    (n, c) ∈ t := by
  unfold getCol at h
  cases hf : t.find? (fun p => p.1 = n) with
  | none => rw [hf] at h; exact absurd h (by simp)
  | some p =>
    rw [hf] at h
    cases h
    have hmem := List.mem_of_find?_eq_some hf
    have hp := List.find?_some hf
    simp only [decide_eq_true_eq] at hp
    rw [← hp]
    exact hmem

/-- `df[n]` succeeds exactly when `n` is a column name. -/
lemma getCol_isSome_iff {t : Table} {n : String} :
    (getCol t n).isSome ↔ n ∈ columns t := by
  unfold getCol columns
  rw [Option.isSome_map', List.find?_isSome]
  constructor
  · rintro ⟨p, hp, hp1⟩
    simp only [decide_eq_true_eq] at hp1
    exact List.mem_map.mpr ⟨p, hp, hp1⟩
  · intro hn
    obtain ⟨p, hp, hp1⟩ := List.mem_map.mp hn
    exact ⟨p, hp, by simp [hp1]⟩

/-- `df[n]` raises (`none`) exactly when `n` is not a column name. -/
lemma getCol_eq_none_iff {t : Table} {n : String} :
    getCol t n = none ↔ n ∉ columns t := by
  rw [← getCol_isSome_iff, Option.isSome_iff_exists]
  cases getCol t n <;> simp

/-- A designated numeric column of a successful `scaleStep` is rescaled
in place, and the step's preconditions held for it. -/
lemma scaleStep_mem_numeric {u t' : Table} {n : String} {c : Column}
    (h : scaleStep u = some t') (hmem : (n, c) ∈ u) (hn : n ∈ numericColumns) :
    (n, minmaxCol c) ∈ t' ∧ c.all isNumCell ∧ c ≠ [] := by
  obtain ⟨ht', _, _, hcols⟩ := scaleStep_eq h
  refine ⟨?_, (hcols _ hmem hn).1, (hcols _ hmem hn).2⟩
  rw [ht']
  refine List.mem_map.mpr ⟨(n, c), hmem, ?_⟩
  simp [hn]

/-- The numeric view of a rescaled column is the pointwise transform of
the numeric view. -/
lemma numsOf_map_scaleCell (c : Column) (mn mx : ℚ) :
    numsOf (c.map (scaleCell mn mx))
      = (numsOf c).map (fun q => if mx = mn then 0 else (q - mn) / (mx - mn)) := by
  induction c with
  | nil => rfl
  | cons cell c ih =>
    match cell with
    | none => simpa [numsOf, scaleCell, cellQ, List.filterMap_cons] using ih
    | some (Value.num q) =>
      simpa [numsOf, scaleCell, cellQ, List.filterMap_cons] using ih
    | some (Value.cat s) =>
      simpa [numsOf, scaleCell, cellQ, List.filterMap_cons] using ih

/-- With fitted bounds, `minmaxCol` is the pointwise cell transform. -/
lemma minmaxCol_eq {c : Column} {mn mx : ℚ} (hmin : (numsOf c).min? = some mn)
    (hmax : (numsOf c).max? = some mx) : minmaxCol c = c.map (scaleCell mn mx) := by
  unfold minmaxCol
  rw [hmin, hmax]

/-- `clean_data` preserves the column names in order. -/
lemma columns_clean_data {t t' : Table} (h : clean_data t = some t') :
    columns t' = columns t := by
  unfold clean_data at h
  cases himp : impute t with
  | none => rw [himp] at h; exact absurd h (by simp)
  | some u =>
    rw [himp] at h
    obtain ⟨ht', _⟩ := scaleStep_eq h
    have : columns t' = columns u := by
      rw [ht']
      unfold columns
      simp
    rw [this, columns_impute himp]

/-- Splitting a sum over a list by a predicate. -/
lemma sum_map_filter_add {α : Type} (p : α → Bool) (f : α → ℚ) (l : List α) :
    ((l.filter p).map f).sum + ((l.filter (fun a => !p a)).map f).sum = (l.map f).sum := by
  induction l with
  | nil => simp
  | cons a l ih =>
    by_cases h : p a
    · rw [List.filter_cons_of_pos (by simp [h]), List.filter_cons_of_neg (by simp [h]),
        List.map_cons, List.sum_cons, List.map_cons, List.sum_cons, add_assoc, ih]
    · rw [List.filter_cons_of_neg (by simp [h]), List.filter_cons_of_pos (by simp [h]),
        List.map_cons, List.sum_cons, List.map_cons, List.sum_cons, ← ih]
      ring

/-- Summing group-by-group over a duplicate-free key cover reproduces the
total sum. -/
lemma sum_over_keys (ks : List Value) (ps : List (Value × ℚ))
    (hnd : ks.Nodup) (hcov : ∀ p ∈ ps, p.1 ∈ ks) :
    (ks.map (fun k => ((ps.filter (fun p => p.1 = k)).map Prod.snd).sum)).sum
      = (ps.map Prod.snd).sum := by
  induction ks generalizing ps with
  | nil =>
    cases ps with
    | nil => simp
    | cons p ps => exact absurd (hcov p (List.mem_cons_self _ _)) (by simp)
  | cons k ks ih =>
    have hnotin : k ∉ ks := (List.nodup_cons.mp hnd).1
    have hnd' : ks.Nodup := (List.nodup_cons.mp hnd).2
    rw [List.map_cons, List.sum_cons,
      ← sum_map_filter_add (fun p => p.1 = k) Prod.snd ps]
    have hfil : ∀ k' ∈ ks,
        ps.filter (fun p => p.1 = k')
          = (ps.filter (fun a => !(decide (a.1 = k)))).filter (fun p => p.1 = k') := by
      intro k' hk'
      have hkk : k' ≠ k := fun e => hnotin (e ▸ hk')
      rw [List.filter_filter]
      apply List.filter_congr
      intro p _
      by_cases hp : p.1 = k'
      · simp [hp, hkk]
      · simp [hp]
    have hcov' : ∀ p ∈ ps.filter (fun a => !(decide (a.1 = k))), p.1 ∈ ks := by
      intro p hp
      obtain ⟨hmem, hne⟩ := List.mem_filter.mp hp
      have := hcov p hmem
      rcases List.mem_cons.mp this with h | h
      · simp [h] at hne
      · exact h
    have hrec := ih (ps.filter (fun a => !(decide (a.1 = k)))) hnd' hcov'
    have hmap : (ks.map (fun k' => ((ps.filter (fun p => p.1 = k')).map Prod.snd).sum))
        = ks.map (fun k' =>
            (((ps.filter (fun a => !(decide (a.1 = k)))).filter
                (fun p => p.1 = k')).map Prod.snd).sum) := by
      apply List.map_congr_left
      intro k' hk'
      rw [hfil k' hk']
    rw [hmap, hrec]

/-- `groupSum` rewritten over the null-coalesced (`NaN → 0`) pairs. -/
lemma groupSum_eq (ps : List (Value × Cell)) (k : Value) :
    groupSum ps k
      = (((ps.map (fun p => (p.1, (cellQ p.2).getD 0))).filter
            (fun p => p.1 = k)).map Prod.snd).sum := by
  unfold groupSum
  rw [List.filter_map, List.map_map]
  rfl

/-- Grouped sums over all keys reproduce the total null-coalesced sum. -/
lemma groupby_conservation (ps : List (Value × Cell)) :
    ((groupKeys ps).map (fun k => groupSum ps k)).sum
      = (ps.map (fun p => (cellQ p.2).getD 0)).sum := by
  have hnd : (groupKeys ps).Nodup :=
    ((List.mergeSort_perm _ _).nodup_iff).mpr (List.nodup_dedup _)
  have hcov : ∀ q ∈ ps.map (fun p => (p.1, (cellQ p.2).getD 0)), q.1 ∈ groupKeys ps := by
    intro q hq
    obtain ⟨p, hp, rfl⟩ := List.mem_map.mp hq
    unfold groupKeys
    rw [(List.mergeSort_perm _ _).mem_iff, List.mem_dedup]
    exact List.mem_map.mpr ⟨p, hp, rfl⟩
  have h := sum_over_keys (groupKeys ps) (ps.map (fun p => (p.1, (cellQ p.2).getD 0)))
    hnd hcov
  calc ((groupKeys ps).map (fun k => groupSum ps k)).sum
      = ((groupKeys ps).map (fun k =>
          (((ps.map (fun p => (p.1, (cellQ p.2).getD 0))).filter
              (fun p => p.1 = k)).map Prod.snd).sum)).sum := by
        apply congrArg
        apply List.map_congr_left
        intro k _
        exact groupSum_eq ps k
    _ = ((ps.map (fun p => (p.1, (cellQ p.2).getD 0))).map Prod.snd).sum := h
    _ = (ps.map (fun p => (cellQ p.2).getD 0)).sum := by rw [List.map_map]; rfl

/-- With a fully observed key column of matching length, the grouped
pairs carry exactly the value column. -/
lemma pairKeyed_snd {kc vc : Column} (hlen : kc.length = vc.length)
    (hobs : ∀ cell ∈ kc, cell.isSome) :
    (pairKeyed kc vc).map Prod.snd = vc := by
  induction kc generalizing vc with
  | nil =>
    cases vc with
    | nil => rfl
    | cons x vc => simp at hlen
  | cons cell kc ih =>
    cases vc with
    | nil => simp at hlen
    | cons x vc =>
      obtain ⟨k, rfl⟩ :=
        Option.isSome_iff_exists.mp (hobs cell (List.mem_cons_self _ _))
      have hrec := ih (by simpa using hlen) (fun c hc => hobs c (List.mem_cons_of_mem _ hc))
      simp only [pairKeyed, List.zip_cons_cons, List.filterMap_cons] at hrec ⊢
      simp only [Option.map_some']
      rw [List.map_cons, hrec]

/-- The null-skipping sum equals the null-coalescing sum. -/
lemma sum_numsOf (c : Column) :
    (numsOf c).sum = (c.map (fun cell => (cellQ cell).getD 0)).sum := by
  induction c with
  | nil => rfl
  | cons cell c ih =>
    unfold numsOf at ih ⊢
    cases hcq : cellQ cell with
    | none => simp [List.filterMap_cons, hcq, ih]
    | some q => simp [List.filterMap_cons, hcq, ih]

/-- A column without nulls is fully observed. -/
lemma all_isSome_of_nullCount_zero {c : Column} (h : nullCount c = 0) :
    ∀ cell ∈ c, cell.isSome := by
  unfold nullCount at h
  intro cell hc
  cases hcell : cell with
  | some v => rfl
  | none =>
    exfalso
    have : (none : Cell) ∈ c.filter Option.isNone := by
      rw [List.mem_filter]
      exact ⟨hcell ▸ hc, rfl⟩
    rw [List.length_eq_zero.mp h] at this
    exact absurd this (List.not_mem_nil _)

/-! ### Evaluation lemmas for concrete fixtures

`decide` cannot evaluate `ℚ` division in the kernel, so concrete runs of
`clean_data` are assembled from small equation lemmas, with `norm_num`
evaluating the arithmetic. -/

lemma impute_nil : impute [] = some [] := rfl

lemma impute_cons {n : String} {c c' : Column} {rest rest' : Table}
    (h1 : imputeCol n c = some c') (h2 : impute rest = some rest') :
    impute ((n, c) :: rest) = some ((n, c') :: rest') := by
  unfold impute
  rw [h1, h2]

lemma imputeCol_numeric_eq {n : String} {c : Column} {m : ℚ}
    (h0 : ¬nullCount c = 0) (hn : n ∈ numericColumns)
    (hall : c.all isNumCell) (hm : colMean c = some m) :
    imputeCol n c = some (c.map (fun cell => some (cell.getD (Value.num m)))) := by
  unfold imputeCol fillNumeric
  rw [if_neg h0, if_pos hn, if_pos hall, hm]

lemma imputeCol_mode_eq {n : String} {c : Column} {m : Value}
    (h0 : ¬nullCount c = 0) (hn : n ∉ numericColumns) (hm : firstMode c = some m) :
    imputeCol n c = some (c.map (fun cell => some (cell.getD m))) := by
  unfold imputeCol fillMode
  rw [if_neg h0, if_neg hn, hm]

lemma scaleStep_pos {t : Table}
    (hcond : "Unit" ∈ columns t ∧ "Sales" ∈ columns t ∧
      ∀ p ∈ t, p.1 ∈ numericColumns → (p.2.all isNumCell ∧ p.2 ≠ [])) :
    scaleStep t
      = some (t.map (fun p =>
          (p.1, if p.1 ∈ numericColumns then minmaxCol p.2 else p.2))) := by
  unfold scaleStep
  rw [if_pos hcond]

lemma clean_data_eq {t u t' : Table} (h1 : impute t = some u)
    (h2 : scaleStep u = some t') : clean_data t = some t' := by
  unfold clean_data
  rw [h1]
  exact h2

/-- A fully successful pipeline run writes the charts and the report. -/
lemma runPipeline_some {df df1 : Table} {a : Aggregates}
    (h1 : clean_data df = some df1) (h2 : perform_analysis_core df1 = some a) :
    runPipeline df
      = ⟨true,
         ["load_data", "check_missing_values", "clean_data", "perform_analysis",
          "create_visualizations", "generate_report"],
         chartFiles df1 ++ [report_file], true⟩ := by
  unfold runPipeline
  rw [h1]
  show (match perform_analysis_core df1 with
    | none =>
      ⟨true, ["load_data", "check_missing_values", "clean_data", "perform_analysis"],
       [], false⟩
    | some _ =>
      ⟨true,
       ["load_data", "check_missing_values", "clean_data", "perform_analysis",
        "create_visualizations", "generate_report"],
       chartFiles df1 ++ [report_file], true⟩ : RunResult) = _
  rw [h2]

lemma impute_tWithNulls : impute tWithNulls = some imputedWithNulls := by
  refine impute_cons ?_ (impute_cons ?_ (impute_cons ?_ impute_nil))
  · rw [imputeCol_numeric_eq (m := 1) (by decide) (by decide) (by decide) ?_]
    · decide
    · norm_num [colMean, numsOf, cellQ, List.filterMap_cons]
  · exact imputeCol_of_nullCount_zero (by decide)
  · rw [imputeCol_mode_eq (m := Value.cat "A") (by decide) (by decide) (by decide)]
    decide

lemma scaleStep_imputedWithNulls :
    scaleStep imputedWithNulls = some cleanedWithNulls := by
  rw [scaleStep_pos (by decide)]
  norm_num [imputedWithNulls, cleanedWithNulls, numericColumns, minmaxCol, numsOf,
    cellQ, scaleCell, List.min?, List.max?, List.filterMap_cons]

lemma clean_tWithNulls : clean_data tWithNulls = some cleanedWithNulls :=
  clean_data_eq impute_tWithNulls scaleStep_imputedWithNulls

lemma impute_tConstUnit : impute tConstUnit = some tConstUnit := by decide

lemma scaleStep_tConstUnit : scaleStep tConstUnit = some cleanedConstUnit := by
  rw [scaleStep_pos (by decide)]
  norm_num [tConstUnit, cleanedConstUnit, numericColumns, minmaxCol, numsOf,
    cellQ, scaleCell, List.min?, List.max?, List.filterMap_cons]

lemma clean_tConstUnit : clean_data tConstUnit = some cleanedConstUnit :=
  clean_data_eq impute_tConstUnit scaleStep_tConstUnit

lemma impute_tNoTime : impute tNoTime = some tNoTime := by decide

lemma scaleStep_tNoTime : scaleStep tNoTime = some cleanedNoTime := by
  rw [scaleStep_pos (by decide)]
  norm_num [tNoTime, cleanedNoTime, numericColumns, minmaxCol, numsOf,
    cellQ, scaleCell, List.min?, List.max?, List.filterMap_cons]

lemma clean_tNoTime : clean_data tNoTime = some cleanedNoTime :=
  clean_data_eq impute_tNoTime scaleStep_tNoTime

/-- The kernel cannot reduce `String.lt` (it loops over byte iterators),
so string comparisons are routed through the character list. -/
lemma leB_cat_toList (a b : String) :
    Value.leB (Value.cat a) (Value.cat b) = !decide (b.toList < a.toList) := by
  simp only [Value.leB]
  rw [decide_eq_decide.mpr String.lt_iff_toList_lt]

lemma leB_AB : Value.leB (Value.cat "A") (Value.cat "B") = true := by
  rw [leB_cat_toList]; decide

lemma leB_AC : Value.leB (Value.cat "A") (Value.cat "C") = true := by
  rw [leB_cat_toList]; decide

lemma leB_AD : Value.leB (Value.cat "A") (Value.cat "D") = true := by
  rw [leB_cat_toList]; decide

lemma leB_AE : Value.leB (Value.cat "A") (Value.cat "E") = true := by
  rw [leB_cat_toList]; decide

lemma leB_BC : Value.leB (Value.cat "B") (Value.cat "C") = true := by
  rw [leB_cat_toList]; decide

lemma leB_BD : Value.leB (Value.cat "B") (Value.cat "D") = true := by
  rw [leB_cat_toList]; decide

lemma leB_BE : Value.leB (Value.cat "B") (Value.cat "E") = true := by
  rw [leB_cat_toList]; decide

lemma leB_CD : Value.leB (Value.cat "C") (Value.cat "D") = true := by
  rw [leB_cat_toList]; decide

lemma leB_CE : Value.leB (Value.cat "C") (Value.cat "E") = true := by
  rw [leB_cat_toList]; decide

lemma leB_DE : Value.leB (Value.cat "D") (Value.cat "E") = true := by
  rw [leB_cat_toList]; decide

lemma leB_XY : Value.leB (Value.cat "X") (Value.cat "Y") = true := by
  rw [leB_cat_toList]; decide

lemma keys5 : groupKeys (pairKeyed stateCol5 salesCol5)
    = [Value.cat "A", Value.cat "B", Value.cat "C", Value.cat "D", Value.cat "E"] := by
  unfold groupKeys
  rw [show (pairKeyed stateCol5 salesCol5).map Prod.fst
      = [Value.cat "A", Value.cat "B", Value.cat "C", Value.cat "D", Value.cat "E"]
    from by decide]
  rw [show [Value.cat "A", Value.cat "B", Value.cat "C", Value.cat "D",
        Value.cat "E"].dedup
      = [Value.cat "A", Value.cat "B", Value.cat "C", Value.cat "D", Value.cat "E"]
    from by decide]
  apply List.mergeSort_of_sorted
  norm_num [List.pairwise_cons, leB_AB, leB_AC, leB_AD, leB_AE, leB_BC, leB_BD,
    leB_BE, leB_CD, leB_CE, leB_DE]

lemma gs5A : groupSum (pairKeyed stateCol5 salesCol5) (Value.cat "A") = 100 := by
  unfold groupSum
  rw [show (pairKeyed stateCol5 salesCol5).filter (fun p => p.1 = Value.cat "A")
      = [(Value.cat "A", some (Value.num 100))] from by decide]
  norm_num [cellQ]

lemma gs5B : groupSum (pairKeyed stateCol5 salesCol5) (Value.cat "B") = 50 := by
  unfold groupSum
  rw [show (pairKeyed stateCol5 salesCol5).filter (fun p => p.1 = Value.cat "B")
      = [(Value.cat "B", some (Value.num 50))] from by decide]
  norm_num [cellQ]

lemma gs5C : groupSum (pairKeyed stateCol5 salesCol5) (Value.cat "C") = 200 := by
  unfold groupSum
  rw [show (pairKeyed stateCol5 salesCol5).filter (fun p => p.1 = Value.cat "C")
      = [(Value.cat "C", some (Value.num 200))] from by decide]
  norm_num [cellQ]

lemma gs5D : groupSum (pairKeyed stateCol5 salesCol5) (Value.cat "D") = 10 := by
  unfold groupSum
  rw [show (pairKeyed stateCol5 salesCol5).filter (fun p => p.1 = Value.cat "D")
      = [(Value.cat "D", some (Value.num 10))] from by decide]
  norm_num [cellQ]

lemma gs5E : groupSum (pairKeyed stateCol5 salesCol5) (Value.cat "E") = 75 := by
  unfold groupSum
  rw [show (pairKeyed stateCol5 salesCol5).filter (fun p => p.1 = Value.cat "E")
      = [(Value.cat "E", some (Value.num 75))] from by decide]
  norm_num [cellQ]

lemma gb5 : groupbySum stateCol5 salesCol5 = grouped5 := by
  unfold groupbySum
  rw [keys5]
  simp only [List.map_cons, List.map_nil]
  rw [gs5A, gs5B, gs5C, gs5D, gs5E]
  rfl

lemma groupKeys_singleton (k : Value) (v : Cell) :
    groupKeys (pairKeyed [some k] [v]) = [k] := by
  unfold groupKeys pairKeyed
  rw [show (([some k].zip [v]).filterMap (fun p => p.1.map (fun kk => (kk, p.2))))
      = [(k, v)] from by simp]
  rw [show ([(k, v)].map Prod.fst) = [k] from by simp]
  rw [show [k].dedup = [k] from by simp]
  exact List.mergeSort_of_sorted (by simp)

lemma groupSum_singleton (k : Value) (q : ℚ) :
    groupSum [(k, some (Value.num q))] k = q := by
  unfold groupSum
  rw [show ([(k, some (Value.num q))].filter (fun p => p.1 = k))
      = [(k, some (Value.num q))] from by simp]
  simp [cellQ]

lemma groupbySum_singleton (k : Value) (q : ℚ) :
    groupbySum [some k] [some (Value.num q)] = [(k, q)] := by
  unfold groupbySum
  rw [groupKeys_singleton]
  simp only [List.map_cons, List.map_nil]
  rw [show pairKeyed [some k] [some (Value.num q)] = [(k, some (Value.num q))]
    from by simp [pairKeyed]]
  rw [groupSum_singleton]

lemma describeCol_singleton (q : ℚ) :
    describeCol [some (Value.num q)] = descSingleton q := by
  simp only [describeCol]
  rw [show numsOf [some (Value.num q)] = [q] from by
    simp [numsOf, cellQ, List.filterMap_cons]]
  rw [List.mergeSort_of_sorted (by simp)]
  unfold descSingleton
  norm_num [colMean, sampleVar, quantileSorted, numsOf, cellQ, List.filterMap_cons]

lemma describeCol01 :
    describeCol [some (Value.num 0), some (Value.num 1)] = desc01 := by
  simp only [describeCol]
  rw [show numsOf [some (Value.num 0), some (Value.num 1)] = [0, 1] from by decide]
  rw [List.mergeSort_of_sorted (by norm_num [List.pairwise_cons])]
  unfold desc01
  norm_num [colMean, sampleVar, quantileSorted, numsOf, cellQ, List.filterMap_cons,
    List.getD]

lemma keysNT_state :
    groupKeys (pairKeyed [some (Value.cat "A"), some (Value.cat "B")]
        [some (Value.num 0), some (Value.num 1)])
      = [Value.cat "A", Value.cat "B"] := by
  unfold groupKeys
  rw [show ((pairKeyed [some (Value.cat "A"), some (Value.cat "B")]
        [some (Value.num 0), some (Value.num 1)]).map Prod.fst)
      = [Value.cat "A", Value.cat "B"] from by decide]
  rw [show [Value.cat "A", Value.cat "B"].dedup = [Value.cat "A", Value.cat "B"]
    from by decide]
  exact List.mergeSort_of_sorted (by norm_num [List.pairwise_cons, leB_AB])

lemma keysNT_group :
    groupKeys (pairKeyed [some (Value.cat "X"), some (Value.cat "Y")]
        [some (Value.num 0), some (Value.num 1)])
      = [Value.cat "X", Value.cat "Y"] := by
  unfold groupKeys
  rw [show ((pairKeyed [some (Value.cat "X"), some (Value.cat "Y")]
        [some (Value.num 0), some (Value.num 1)]).map Prod.fst)
      = [Value.cat "X", Value.cat "Y"] from by decide]
  rw [show [Value.cat "X", Value.cat "Y"].dedup = [Value.cat "X", Value.cat "Y"]
    from by decide]
  exact List.mergeSort_of_sorted (by norm_num [List.pairwise_cons, leB_XY])

lemma gbNT_state :
    groupbySum [some (Value.cat "A"), some (Value.cat "B")]
        [some (Value.num 0), some (Value.num 1)]
      = [(Value.cat "A", 0), (Value.cat "B", 1)] := by
  unfold groupbySum
  rw [keysNT_state]
  simp only [List.map_cons, List.map_nil]
  rw [show groupSum (pairKeyed [some (Value.cat "A"), some (Value.cat "B")]
        [some (Value.num 0), some (Value.num 1)]) (Value.cat "A") = 0 from by
    unfold groupSum
    rw [show ((pairKeyed [some (Value.cat "A"), some (Value.cat "B")]
          [some (Value.num 0), some (Value.num 1)]).filter
            (fun p => p.1 = Value.cat "A"))
        = [(Value.cat "A", some (Value.num 0))] from by decide]
    norm_num [cellQ]]
  rw [show groupSum (pairKeyed [some (Value.cat "A"), some (Value.cat "B")]
        [some (Value.num 0), some (Value.num 1)]) (Value.cat "B") = 1 from by
    unfold groupSum
    rw [show ((pairKeyed [some (Value.cat "A"), some (Value.cat "B")]
          [some (Value.num 0), some (Value.num 1)]).filter
            (fun p => p.1 = Value.cat "B"))
        = [(Value.cat "B", some (Value.num 1))] from by decide]
    norm_num [cellQ]]

lemma gbNT_group :
    groupbySum [some (Value.cat "X"), some (Value.cat "Y")]
        [some (Value.num 0), some (Value.num 1)]
      = [(Value.cat "X", 0), (Value.cat "Y", 1)] := by
  unfold groupbySum
  rw [keysNT_group]
  simp only [List.map_cons, List.map_nil]
  rw [show groupSum (pairKeyed [some (Value.cat "X"), some (Value.cat "Y")]
        [some (Value.num 0), some (Value.num 1)]) (Value.cat "X") = 0 from by
    unfold groupSum
    rw [show ((pairKeyed [some (Value.cat "X"), some (Value.cat "Y")]
          [some (Value.num 0), some (Value.num 1)]).filter
            (fun p => p.1 = Value.cat "X"))
        = [(Value.cat "X", some (Value.num 0))] from by decide]
    norm_num [cellQ]]
  rw [show groupSum (pairKeyed [some (Value.cat "X"), some (Value.cat "Y")]
        [some (Value.num 0), some (Value.num 1)]) (Value.cat "Y") = 1 from by
    unfold groupSum
    rw [show ((pairKeyed [some (Value.cat "X"), some (Value.cat "Y")]
          [some (Value.num 0), some (Value.num 1)]).filter
            (fun p => p.1 = Value.cat "Y"))
        = [(Value.cat "Y", some (Value.num 1))] from by decide]
    norm_num [cellQ]]

lemma core_tTiny : perform_analysis_core tTiny = some aggTiny := by
  unfold perform_analysis_core
  rw [show getCol tTiny "State" = some [some (Value.cat "A")] from by decide]
  rw [show getCol tTiny "Group" = some [some (Value.cat "G")] from by decide]
  rw [show getCol tTiny "Sales" = some [some (Value.num 2)] from by decide]
  rw [show getCol tTiny "Unit" = some [some (Value.num 1)] from by decide]
  rw [show getCol tTiny "Time" = none from by decide]
  show some
      { state_wise := groupbySum [some (Value.cat "A")] [some (Value.num 2)]
        group_wise := groupbySum [some (Value.cat "G")] [some (Value.num 2)]
        time_wise := none
        stats := { unit := describeCol [some (Value.num 1)]
                   sales := describeCol [some (Value.num 2)] } }
    = some aggTiny
  rw [groupbySum_singleton, groupbySum_singleton, describeCol_singleton,
    describeCol_singleton]
  rfl

lemma pa_sTiny : perform_analysis sTiny = some (sTiny1, aggTiny.stats) := by
  have h : perform_analysis sTiny
      = (perform_analysis_core tTiny).map (fun a =>
          ({ sTiny with
              state_wise := some a.state_wise
              group_wise := some a.group_wise
              time_wise :=
                match a.time_wise with
                | some tw => some tw
                | none => sTiny.time_wise }, a.stats)) := rfl
  rw [h, core_tTiny]
  rfl

lemma core_cleanedNoTime : perform_analysis_core cleanedNoTime = some aggNoTime := by
  unfold perform_analysis_core
  rw [show getCol cleanedNoTime "State"
      = some [some (Value.cat "A"), some (Value.cat "B")] from by decide]
  rw [show getCol cleanedNoTime "Group"
      = some [some (Value.cat "X"), some (Value.cat "Y")] from by decide]
  rw [show getCol cleanedNoTime "Sales"
      = some [some (Value.num 0), some (Value.num 1)] from by decide]
  rw [show getCol cleanedNoTime "Unit"
      = some [some (Value.num 0), some (Value.num 1)] from by decide]
  rw [show getCol cleanedNoTime "Time" = none from by decide]
  show some
      { state_wise := groupbySum [some (Value.cat "A"), some (Value.cat "B")]
          [some (Value.num 0), some (Value.num 1)]
        group_wise := groupbySum [some (Value.cat "X"), some (Value.cat "Y")]
          [some (Value.num 0), some (Value.num 1)]
        time_wise := none
        stats := { unit := describeCol [some (Value.num 0), some (Value.num 1)]
                   sales := describeCol [some (Value.num 0), some (Value.num 1)] } }
    = some aggNoTime
  rw [gbNT_state, gbNT_group, describeCol01]
  rfl

/-- `nlargest(3)` selection specification: three rows (when available),
all from the frame, sorted descending, and dominating every row left
out. -/
lemma nlargest3_spec (g : List (Value × ℚ)) :
    (nlargest3 g).length = min 3 g.length ∧
      (∀ x ∈ nlargest3 g, x ∈ g) ∧
      List.Pairwise (fun a b => b.2 ≤ a.2) (nlargest3 g) ∧
      (∀ y ∈ g, y ∉ nlargest3 g → ∀ x ∈ nlargest3 g, y.2 ≤ x.2) := by
  have htrans : ∀ a b c : Value × ℚ, (decide (b.2 ≤ a.2)) = true →
      (decide (c.2 ≤ b.2)) = true → (decide (c.2 ≤ a.2)) = true := by
    intro a b c h1 h2
    simp only [decide_eq_true_eq] at h1 h2 ⊢
    exact le_trans h2 h1
  have htotal : ∀ a b : Value × ℚ,
      (decide (b.2 ≤ a.2) || decide (a.2 ≤ b.2)) = true := by
    intro a b
    rcases le_total b.2 a.2 with h | h <;> simp [h]
  have hperm := List.mergeSort_perm g (fun a b => decide (b.2 ≤ a.2))
  have hsorted := List.sorted_mergeSort htrans htotal g
  refine ⟨?_, ?_, ?_, ?_⟩
  · unfold nlargest3
    rw [List.length_take, List.length_mergeSort]
  · intro x hx
    exact hperm.mem_iff.mp ((List.take_sublist _ _).mem hx)
  · refine List.Pairwise.imp ?_ (List.Pairwise.sublist (List.take_sublist _ _) hsorted)
    intro a b h
    exact of_decide_eq_true h
  · intro y hy hyn x hx
    have hys : y ∈ g.mergeSort (fun a b => decide (b.2 ≤ a.2)) := hperm.mem_iff.mpr hy
    rw [← List.take_append_drop 3 (g.mergeSort (fun a b => decide (b.2 ≤ a.2)))]
      at hys hsorted
    rcases List.mem_append.mp hys with h | h
    · exact absurd h hyn
    · obtain ⟨_, _, hcross⟩ := List.pairwise_append.mp hsorted
      exact of_decide_eq_true (hcross x hx y h)

/-- `nsmallest(3)` selection specification, dually. -/
lemma nsmallest3_spec (g : List (Value × ℚ)) :
    (nsmallest3 g).length = min 3 g.length ∧
      (∀ x ∈ nsmallest3 g, x ∈ g) ∧
      List.Pairwise (fun a b => a.2 ≤ b.2) (nsmallest3 g) ∧
      (∀ y ∈ g, y ∉ nsmallest3 g → ∀ x ∈ nsmallest3 g, x.2 ≤ y.2) := by
  have htrans : ∀ a b c : Value × ℚ, (decide (a.2 ≤ b.2)) = true →
      (decide (b.2 ≤ c.2)) = true → (decide (a.2 ≤ c.2)) = true := by
    intro a b c h1 h2
    simp only [decide_eq_true_eq] at h1 h2 ⊢
    exact le_trans h1 h2
  have htotal : ∀ a b : Value × ℚ,
      (decide (a.2 ≤ b.2) || decide (b.2 ≤ a.2)) = true := by
    intro a b
    rcases le_total a.2 b.2 with h | h <;> simp [h]
  have hperm := List.mergeSort_perm g (fun a b => decide (a.2 ≤ b.2))
  have hsorted := List.sorted_mergeSort htrans htotal g
  refine ⟨?_, ?_, ?_, ?_⟩
  · unfold nsmallest3
    rw [List.length_take, List.length_mergeSort]
  · intro x hx
    exact hperm.mem_iff.mp ((List.take_sublist _ _).mem hx)
  · refine List.Pairwise.imp ?_ (List.Pairwise.sublist (List.take_sublist _ _) hsorted)
    intro a b h
    exact of_decide_eq_true h
  · intro y hy hyn x hx
    have hys : y ∈ g.mergeSort (fun a b => decide (a.2 ≤ b.2)) := hperm.mem_iff.mpr hy
    rw [← List.take_append_drop 3 (g.mergeSort (fun a b => decide (a.2 ≤ b.2)))]
      at hys hsorted
    rcases List.mem_append.mp hys with h | h
    · exact absurd h hyn
    · obtain ⟨_, _, hcross⟩ := List.pairwise_append.mp hsorted
      exact of_decide_eq_true (hcross x hx y h)

lemma top3_grouped5 : nlargest3 grouped5
    = [(Value.cat "C", 200), (Value.cat "A", 100), (Value.cat "E", 75)] := by
  norm_num [nlargest3, grouped5, List.mergeSort, List.merge]

lemma bot3_grouped5 : nsmallest3 grouped5
    = [(Value.cat "D", 10), (Value.cat "B", 50), (Value.cat "E", 75)] := by
  norm_num [nsmallest3, grouped5, List.mergeSort, List.merge]

/-! ### Claims -/

/-- C1 (counterexample): the claim "for every input table, after
`clean_data` no column contains a missing value" fails on a table whose
Unit column is entirely null: the column mean is `NaN`, `fillna` leaves
the nulls, the scaler passes them through, and `clean_data` completes
with the Unit column still null. -/
theorem C1_counterexample :
    clean_data tAllNullUnit = some cleanedAllNullUnit ∧
      ∃ p ∈ cleanedAllNullUnit, nullCount p.2 ≠ 0 := by
  decide

/-- C1 (amended): for every input table in which each column holding a
missing value also holds at least one observed value, a successful
`clean_data` leaves zero missing values in every column. -/
theorem C1_cleaning_removes_nulls (t t' : Table)
    (h : clean_data t = some t')
    (hobs : ∀ p ∈ t, 0 < nullCount p.2 → observed p.2 ≠ []) :
    ∀ p ∈ t', nullCount p.2 = 0 :=
  clean_data_noNulls h hobs

/-- Witness for C1 (amended) at `tWithNulls`, read off at the cleaned
Unit column. -/
theorem C1_cleaning_removes_nulls_witness :
    nullCount [some (Value.num 0), some (Value.num 0)] = 0 :=
  C1_cleaning_removes_nulls tWithNulls cleanedWithNulls clean_tWithNulls (by decide)
    ("Unit", [some (Value.num 0), some (Value.num 0)]) (by decide)

/-- C3 (counterexample): the claim that min-max scaling of a constant
designated numeric column performs a division by zero (an undefined
result) is false: `MinMaxScaler` replaces the zero range by 1, so
`clean_data` on a table whose Unit column is constant returns a defined,
deterministic table whose Unit column is all zeros. -/
theorem C3_counterexample :
    clean_data tConstUnit = some cleanedConstUnit ∧
      ∃ p ∈ cleanedConstUnit, p.1 = "Unit" ∧ numsOf p.2 = [0, 0] :=
  ⟨clean_tConstUnit, by decide⟩

/-- C3 (amended): when a designated numeric column is constant
(`max = min`) at scaling time, min-max scaling is defined and
deterministic: every value of the column maps to exactly 0. -/
theorem C3_constant_column_scales_to_zero (t u t' : Table) (n : String)
    (c : Column) (mn mx : ℚ)
    (himp : impute t = some u) (hscale : scaleStep u = some t')
    (hmem : (n, c) ∈ u) (hn : n ∈ numericColumns)
    (hmin : (numsOf c).min? = some mn) (hmax : (numsOf c).max? = some mx)
    (heq : mx = mn) :
    (n, minmaxCol c) ∈ t' ∧ ∀ q ∈ numsOf (minmaxCol c), q = 0 := by
  obtain ⟨hmem', hall, hne⟩ := scaleStep_mem_numeric hscale hmem hn
  refine ⟨hmem', ?_⟩
  rw [minmaxCol_eq hmin hmax, numsOf_map_scaleCell]
  intro q hq
  obtain ⟨x, hx, rfl⟩ := List.mem_map.mp hq
  simp [heq]

/-- Witness for C3 (amended) at `tConstUnit`, read off at the first
scaled value. -/
theorem C3_constant_column_witness :
    ("Unit", minmaxCol [some (Value.num 7), some (Value.num 7)]) ∈ cleanedConstUnit ∧
      (0 : ℚ) = 0 :=
  have h := C3_constant_column_scales_to_zero tConstUnit tConstUnit cleanedConstUnit
    "Unit" [some (Value.num 7), some (Value.num 7)] 7 7
    impute_tConstUnit scaleStep_tConstUnit (by decide) (by decide)
    (by decide) (by decide) rfl
  ⟨h.1, h.2 0 (by decide)⟩

/-- C4: for every cleaned table, the per-region sums of the State-wise
grouped aggregate add up to the SalesAmount total of the whole cleaned
table (conservation of the total). -/
theorem C4_conservation (t0 t : Table) (sc xc : Column)
    (hclean : clean_data t0 = some t)
    (hsc : getCol t "State" = some sc) (hxc : getCol t "Sales" = some xc)
    (hlen : sc.length = xc.length) :
    ((groupbySum sc xc).map Prod.snd).sum = (numsOf xc).sum := by
  have hmem := getCol_mem hsc
  have hnn : nullCount sc = 0 :=
    clean_data_nonnumeric_noNulls hclean ("State", sc) hmem
      (show "State" ∉ numericColumns by decide)
  have hobs : ∀ cell ∈ sc, cell.isSome := all_isSome_of_nullCount_zero hnn
  unfold groupbySum
  rw [List.map_map]
  have h1 : (Prod.snd ∘ fun k => (k, groupSum (pairKeyed sc xc) k))
      = fun k => groupSum (pairKeyed sc xc) k := rfl
  rw [h1, groupby_conservation]
  have h2 : (pairKeyed sc xc).map (fun p => (cellQ p.2).getD 0)
      = ((pairKeyed sc xc).map Prod.snd).map (fun cell => (cellQ cell).getD 0) := by
    rw [List.map_map]
    rfl
  rw [h2, pairKeyed_snd hlen hobs, ← sum_numsOf]

/-- Witness for C4 at the cleaned `tWithNulls`. -/
theorem C4_conservation_witness :
    ((groupbySum [some (Value.cat "A"), some (Value.cat "A")]
        [some (Value.num 0), some (Value.num 1)]).map Prod.snd).sum
      = (numsOf [some (Value.num 0), some (Value.num 1)]).sum :=
  C4_conservation tWithNulls cleanedWithNulls
    [some (Value.cat "A"), some (Value.cat "A")]
    [some (Value.num 0), some (Value.num 1)]
    clean_tWithNulls (by decide) (by decide) (by decide)

/-- C5: the Aggregator's top-3 (`nlargest(3)`) rows are rows of the
grouped frame, sorted descending, dominating every row left out, with
ties kept in frame order (the stable sort in the definition); dually for
the bottom-3; and on the example table with region sums A:100, B:50,
C:200, D:10, E:75 the top-3 is [C 200, A 100, E 75] and the bottom-3 is
[D 10, B 50, E 75]. -/
theorem C5_top_bottom_selection :
    (∀ g : List (Value × ℚ),
      ((nlargest3 g).length = min 3 g.length ∧
        (∀ x ∈ nlargest3 g, x ∈ g) ∧
        List.Pairwise (fun a b => b.2 ≤ a.2) (nlargest3 g) ∧
        (∀ y ∈ g, y ∉ nlargest3 g → ∀ x ∈ nlargest3 g, y.2 ≤ x.2)) ∧
      ((nsmallest3 g).length = min 3 g.length ∧
        (∀ x ∈ nsmallest3 g, x ∈ g) ∧
        List.Pairwise (fun a b => a.2 ≤ b.2) (nsmallest3 g) ∧
        (∀ y ∈ g, y ∉ nsmallest3 g → ∀ x ∈ nsmallest3 g, x.2 ≤ y.2))) ∧
    getCol tFiveStates "State" = some stateCol5 ∧
    getCol tFiveStates "Sales" = some salesCol5 ∧
    groupbySum stateCol5 salesCol5 = grouped5 ∧
    nlargest3 grouped5
      = [(Value.cat "C", 200), (Value.cat "A", 100), (Value.cat "E", 75)] ∧
    nsmallest3 grouped5
      = [(Value.cat "D", 10), (Value.cat "B", 50), (Value.cat "E", 75)] :=
  ⟨fun g => ⟨nlargest3_spec g, nsmallest3_spec g⟩,
   by decide, by decide, gb5, top3_grouped5, bot3_grouped5⟩

/-- Witness for C5: the dominance part applied at the example frame, for
the left-out row (D, 10) against the selected row (C, 200). -/
theorem C5_top_bottom_selection_witness :
    (Value.cat "D", (10 : ℚ)) ∈ grouped5 ∧ (10 : ℚ) ≤ (200 : ℚ) :=
  ⟨by decide,
   ((C5_top_bottom_selection.1 grouped5).1.2.2.2 (Value.cat "D", 10) (by decide)
      (by rw [top3_grouped5]; decide) (Value.cat "C", 200)
      (by rw [top3_grouped5]; decide))⟩

/-- C6: with no file at the configured path, the Loader returns `False`
instead of raising, no later stage runs, and no chart or report file is
written. -/
theorem C6_missing_file (fs : FS) (h : ∀ p ∈ fs.files, p.1 ≠ data_path) :
    (load_data fs).1 = false ∧
      main fs = ⟨false, ["load_data"], [], false⟩ := by
  have hfind : fs.files.find? (fun p => p.1 = data_path) = none :=
    List.find?_eq_none.mpr (fun p hp => by simpa using h p hp)
  have hload : load_data fs = (false, none) := by
    unfold load_data
    rw [hfind]
  refine ⟨by rw [hload], ?_⟩
  unfold main
  rw [hload]

/-- Witness for C6 at the empty filesystem. -/
theorem C6_missing_file_witness :
    (load_data ⟨[]⟩).1 = false ∧
      main ⟨[]⟩ = ⟨false, ["load_data"], [], false⟩ :=
  C6_missing_file ⟨[]⟩ (by decide)

/-- C8: the Quality Inspector leaves the analysis state (in particular
the table) untouched and returns one boolean per column, true exactly
when the column has at least one null. -/
theorem C8_inspector_readonly (s : AnalysisState) (df : Table)
    (hdf : s.df = some df) :
    check_missing_values s = some (s, missingMask df) ∧
      (missingMask df).length = df.length ∧
      ∀ i (hi : i < (missingMask df).length) (hi' : i < df.length),
        ((missingMask df).get ⟨i, hi⟩).1 = (df.get ⟨i, hi'⟩).1 ∧
        (((missingMask df).get ⟨i, hi⟩).2 = true ↔
          0 < nullCount (df.get ⟨i, hi'⟩).2) := by
  refine ⟨?_, ?_, ?_⟩
  · unfold check_missing_values
    rw [hdf]
    rfl
  · unfold missingMask
    rw [List.length_map]
  · intro i hi hi'
    unfold missingMask
    constructor
    · rw [List.get_map]
    · rw [List.get_map]
      simp only [decide_eq_true_eq]

/-- Witness for C8 at `tWithNulls`. -/
theorem C8_inspector_readonly_witness :
    check_missing_values ⟨some tWithNulls, none, none, none⟩
        = some (⟨some tWithNulls, none, none, none⟩, missingMask tWithNulls) ∧
      (missingMask tWithNulls).length = tWithNulls.length :=
  have h := C8_inspector_readonly ⟨some tWithNulls, none, none, none⟩ tWithNulls rfl
  ⟨h.1, h.2.1⟩

/-- C2: a designated numeric column whose post-imputation values are not
all equal is rescaled pointwise to `(x - min) / (max - min)`: every
scaled value lies in [0, 1], positions holding the pre-scaling minimum
map to exactly 0 and positions holding the maximum to exactly 1. -/
theorem C2_minmax_scaling (t u t' : Table) (n : String) (c : Column)
    (mn mx : ℚ)
    (himp : impute t = some u) (hscale : scaleStep u = some t')
    (hmem : (n, c) ∈ u) (hn : n ∈ numericColumns)
    (hmin : (numsOf c).min? = some mn) (hmax : (numsOf c).max? = some mx)
    (hne : mn ≠ mx) :
    (n, minmaxCol c) ∈ t' ∧
      numsOf (minmaxCol c) = (numsOf c).map (fun x => (x - mn) / (mx - mn)) ∧
      (∀ y ∈ numsOf (minmaxCol c), 0 ≤ y ∧ y ≤ 1) ∧
      ∀ i : ℕ,
        ((numsOf c)[i]? = some mn → (numsOf (minmaxCol c))[i]? = some 0) ∧
        ((numsOf c)[i]? = some mx → (numsOf (minmaxCol c))[i]? = some 1) := by
  obtain ⟨hmem', hall, hcne⟩ := scaleStep_mem_numeric hscale hmem hn
  have hmnle := (min?_spec hmin).2
  have hmxmem := (max?_spec hmax).1
  have hmxle := (max?_spec hmax).2
  have hlt : mn < mx := lt_of_le_of_ne (hmnle mx hmxmem) hne
  have hd : 0 < mx - mn := sub_pos.mpr hlt
  have hmap : numsOf (minmaxCol c) = (numsOf c).map (fun x => (x - mn) / (mx - mn)) := by
    rw [minmaxCol_eq hmin hmax, numsOf_map_scaleCell]
    apply List.map_congr_left
    intro q _
    rw [if_neg (Ne.symm hne)]
  refine ⟨hmem', hmap, ?_, ?_⟩
  · intro y hy
    rw [hmap] at hy
    obtain ⟨x, hx, rfl⟩ := List.mem_map.mp hy
    constructor
    · exact div_nonneg (sub_nonneg.mpr (hmnle x hx)) (le_of_lt hd)
    · rw [div_le_one hd]
      exact sub_le_sub_right (hmxle x hx) mn
  · intro i
    constructor
    · intro hx
      rw [hmap, List.getElem?_map, hx]
      simp [div_eq_zero_iff, sub_eq_zero]
    · intro hx
      rw [hmap, List.getElem?_map, hx]
      simp only [Option.map_some']
      rw [div_self (ne_of_gt hd)]

/-- Witness for C2 at the Unit column of `tNoTime` (values 1 and 2):
the minimum position scales to 0 and the maximum position to 1. -/
theorem C2_minmax_scaling_witness :
    ("Unit", minmaxCol [some (Value.num 1), some (Value.num 2)]) ∈ cleanedNoTime ∧
      numsOf (minmaxCol [some (Value.num 1), some (Value.num 2)])
        = (numsOf [some (Value.num 1), some (Value.num 2)]).map
            (fun x => (x - 1) / (2 - 1)) ∧
      (numsOf (minmaxCol [some (Value.num 1), some (Value.num 2)]))[0]? = some 0 ∧
      (numsOf (minmaxCol [some (Value.num 1), some (Value.num 2)]))[1]? = some 1 :=
  have h := C2_minmax_scaling tNoTime tNoTime cleanedNoTime "Unit"
    [some (Value.num 1), some (Value.num 2)] 1 2
    impute_tNoTime scaleStep_tNoTime (by decide) (by decide)
    (by decide) (by decide) (by decide)
  ⟨h.1, h.2.1, (h.2.2.2 0).1 (by decide), (h.2.2.2 1).2 (by decide)⟩

/-- C7: the Aggregator is idempotent and read-only: a successful
`perform_analysis` leaves `self.df` unchanged, and running it again
returns the very same state (state-wise, group-wise and time-wise
aggregates) and the same descriptive statistics. -/
theorem C7_aggregator_idempotent (s s₁ : AnalysisState) (st₁ : Stats2)
    (h : perform_analysis s = some (s₁, st₁)) :
    s₁.df = s.df ∧ perform_analysis s₁ = some (s₁, st₁) := by
  unfold perform_analysis at h
  cases hdf : s.df with
  | none => rw [hdf] at h; exact absurd h (by simp)
  | some df =>
    rw [hdf, Option.some_bind] at h
    cases hcore : perform_analysis_core df with
    | none => rw [hcore] at h; exact absurd h (by simp)
    | some a =>
      rw [hcore, Option.map_some'] at h
      have hpair := Option.some.inj h
      have hs1 : s₁ = ⟨some df, some a.state_wise, some a.group_wise,
          match a.time_wise with
          | some tw => some tw
          | none => s.time_wise⟩ := (congrArg Prod.fst hpair).symm
      have hst : st₁ = a.stats := (congrArg Prod.snd hpair).symm
      subst hst
      subst hs1
      refine ⟨rfl, ?_⟩
      cases htw : a.time_wise with
      | none => simp [perform_analysis, hcore, htw]
      | some tw => simp [perform_analysis, hcore, htw]

/-- Witness for C7 at `tTiny`. -/
theorem C7_aggregator_idempotent_witness :
    sTiny1.df = sTiny.df ∧ perform_analysis sTiny1 = some (sTiny1, aggTiny.stats) :=
  C7_aggregator_idempotent sTiny sTiny1 aggTiny.stats pa_sTiny

/-- C9: on a table without a Time column the run still completes: the
time-wise aggregate is skipped (`None`), every stage runs, and all
output files except the time-of-day chart are written. -/
theorem C9_no_time_column (t t' : Table) (a : Aggregates)
    (hTime : "Time" ∉ columns t)
    (hclean : clean_data t = some t')
    (hcore : perform_analysis_core t' = some a) :
    a.time_wise = none ∧
      main ⟨[(data_path, some t)]⟩
        = ⟨true,
           ["load_data", "check_missing_values", "clean_data",
            "perform_analysis", "create_visualizations", "generate_report"],
           ["state_wise_sales.png", "group_sales.png", "sales_distribution.png",
            "unit_sales_relationship.png", report_file], true⟩ := by
  have hTime' : "Time" ∉ columns t' := by
    rw [columns_clean_data hclean]
    exact hTime
  have hnone : getCol t' "Time" = none := getCol_eq_none_iff.mpr hTime'
  constructor
  · unfold perform_analysis_core at hcore
    cases hS : getCol t' "State" <;> rw [hS] at hcore
    case none => exact absurd hcore (by simp)
    case some sc =>
    cases hG : getCol t' "Group" <;> rw [hG] at hcore
    case none => exact absurd hcore (by simp)
    case some gc =>
    cases hX : getCol t' "Sales" <;> rw [hX] at hcore
    case none => exact absurd hcore (by simp)
    case some xc =>
    cases hU : getCol t' "Unit" <;> rw [hU] at hcore
    case none => exact absurd hcore (by simp)
    case some uc =>
    rw [← Option.some.inj hcore, hnone]
    rfl
  · have hload : load_data ⟨[(data_path, some t)]⟩ = (true, some t) := by
      unfold load_data
      rw [show (([(data_path, some t)] : List (String × Option Table)).find?
          (fun p => p.1 = data_path)) = some (data_path, some t) from by simp]
    unfold main
    rw [hload]
    show runPipeline t = _
    rw [runPipeline_some hclean hcore]
    unfold chartFiles
    rw [if_neg hTime']
    rfl

/-- Witness for C9 at `tNoTime`. -/
theorem C9_no_time_column_witness :
    aggNoTime.time_wise = none ∧
      main ⟨[(data_path, some tNoTime)]⟩
        = ⟨true,
           ["load_data", "check_missing_values", "clean_data",
            "perform_analysis", "create_visualizations", "generate_report"],
           ["state_wise_sales.png", "group_sales.png", "sales_distribution.png",
            "unit_sales_relationship.png", report_file], true⟩ :=
  C9_no_time_column tNoTime cleanedNoTime aggNoTime (by decide)
    clean_tNoTime core_cleanedNoTime

/-- C10: `clean_data` preserves the table's shape: the same columns
(names and order), and every column keeps its number of rows; a column
outside the designated numeric columns that had no missing values is
unchanged. -/
theorem C10_shape_preserved (t t' : Table) (h : clean_data t = some t') :
    columns t' = columns t ∧ t'.length = t.length ∧
      (∀ i (hi : i < t'.length) (hi' : i < t.length),
        (t'.get ⟨i, hi⟩).2.length = (t.get ⟨i, hi'⟩).2.length) ∧
      (∀ i (hi : i < t'.length) (hi' : i < t.length),
        (t.get ⟨i, hi'⟩).1 ∉ numericColumns → nullCount (t.get ⟨i, hi'⟩).2 = 0 →
          t'.get ⟨i, hi⟩ = t.get ⟨i, hi'⟩) := by
  obtain ⟨u, himp, hscale⟩ := clean_data_parts h
  obtain ⟨ht', _, _, _⟩ := scaleStep_eq hscale
  obtain ⟨hlen_u, hget⟩ := impute_get himp
  have hlen' : t'.length = u.length := by rw [ht']; simp
  have hgetf : ∀ i (hi : i < t'.length) (hu : i < u.length),
      t'.get ⟨i, hi⟩
        = ((u.get ⟨i, hu⟩).1,
           if (u.get ⟨i, hu⟩).1 ∈ numericColumns then minmaxCol (u.get ⟨i, hu⟩).2
           else (u.get ⟨i, hu⟩).2) := by
    intro i hi hu
    subst ht'
    rw [List.get_map]
  refine ⟨columns_clean_data h, by rw [hlen', hlen_u], ?_, ?_⟩
  · intro i hi hi'
    have hu : i < u.length := hlen' ▸ hi
    obtain ⟨hname, hcol⟩ := hget i hu hi'
    rw [hgetf i hi hu]
    by_cases hnum : (u.get ⟨i, hu⟩).1 ∈ numericColumns
    · simp only [hnum, if_pos, minmaxCol_length]
      exact imputeCol_length hcol
    · simp only [hnum, if_neg]
      exact imputeCol_length hcol
  · intro i hi hi' hnn h0
    have hu : i < u.length := hlen' ▸ hi
    obtain ⟨hname, hcol⟩ := hget i hu hi'
    rw [imputeCol_of_nullCount_zero h0] at hcol
    have hcol2 : (u.get ⟨i, hu⟩).2 = (t.get ⟨i, hi'⟩).2 := (Option.some.inj hcol).symm
    have hnn' : (u.get ⟨i, hu⟩).1 ∉ numericColumns := by rw [hname]; exact hnn
    rw [hgetf i hi hu, if_neg hnn', hname, hcol2]

/-- Witness for C10 at `tWithNulls`. -/
theorem C10_shape_preserved_witness :
    columns cleanedWithNulls = columns tWithNulls ∧
      cleanedWithNulls.length = tWithNulls.length :=
  have h := C10_shape_preserved tWithNulls cleanedWithNulls clean_tWithNulls
  ⟨h.1, h.2.1⟩

end SalesAnalysisModel
